import Mathlib

/-!
Shallow embedding of `src/crypto_analysis/data/data_extractor.py`
(class `DataExtractor`) and proofs about its behaviour.

Modelling conventions:
* A Python value of type `Union[Path, str]` is the inductive `PyPathOrStr`;
  a `pathlib.Path` is kept as its list of segments, a raw string as itself.
* Timestamps (`datetime`) are natural numbers counting seconds since the
  minimum Python datetime `datetime(1, 1, 1)`; that sentinel is therefore `0`,
  genuinely the least possible value, exactly as in Python where
  `datetime(1, 1, 1)` is `datetime.min`.  File mtimes are stored on this same
  scale (the composition `datetime.fromtimestamp(os.path.getmtime p)` is
  modelled as the stored value directly).
* Python computes `datetime.now() - last_modified <= timedelta(days=7)` on
  possibly-negative timedeltas; over `Nat` the truncated subtraction satisfies
  `now - last ≤ k ↔ now ≤ last + k`, which is the same predicate, so the
  guard is embedded verbatim as `now - last_modified ≤ sevenDays`.
* The filesystem is a map from path strings to files; the HTTP layer is an
  oracle `fetch : String → Table` giving, for a URL, the table obtained by
  parsing the JSON body of a GET on it.  Functions that touch the filesystem
  thread it explicitly and fallible ones return `Except`.
* A network request is observable through the `networkCalled` field of the
  result of `request_all_crypto_info`.
-/

namespace DataExtractor

/-- Union of Python `pathlib.Path` (as its segments) and a plain string. -/
inductive PyPathOrStr where
  | path (segments : List String)
  | str (raw : String)
deriving DecidableEq

/-- Rendering of a `PyPathOrStr` as the string the OS sees (`os.fspath`):
a `Path` prints its segments joined by the separator, a string is itself. -/
def pathToStr : PyPathOrStr → String
  | .path segs => String.intercalate "/" segs
  | .str s => s

/-- Embedding of `DataExtractor.point_to_specific_file`: a `Path` folder is
joined with `Path(f"{file_name}.csv")` (one extra relative segment, for a
file name with no separator in it), a string folder is concatenated with
`"/" + file_name + ".csv"`. -/
def point_to_specific_file (folder_path : PyPathOrStr) (file_name : String) :
    PyPathOrStr :=
  match folder_path with
  | .path segs => .path (segs ++ [file_name ++ ".csv"])
  | .str s => .str (s ++ "/" ++ file_name ++ ".csv")

/-- Embedding of `os.path.split` (posix): cut after the last separator,
then strip trailing separators from the head unless the head is empty or
consists only of separators. -/
def pySplit (p : String) : String × String :=
  let cs := p.toList
  let tail := (cs.reverse.takeWhile (fun c => c ≠ '/')).reverse
  let head := cs.take (cs.length - tail.length)
  let head2 :=
    if head ≠ [] ∧ head.any (fun c => c ≠ '/') then
      (head.reverse.dropWhile (fun c => c = '/')).reverse
    else head
  (String.mk head2, String.mk tail)

/-- Cached tabular data (the CSV round trip is kept abstract: a file stores
the table itself, one list of fields per row). -/
abbrev Table := List (List String)

/-- A file on disk: its modification timestamp and its tabular content. -/
structure FileEntry where
  mtime : Nat
  content : Table
deriving DecidableEq

/-- The filesystem: a map from path strings to files. -/
abbrev FS := String → Option FileEntry

/-- Errors surfaced by the cache helpers; the only structured error in the
source is `FileNotFoundError`. -/
inductive PyError where
  | fileNotFound (msg : String)
deriving DecidableEq

/-- Sentinel timestamp `datetime(1, 1, 1)`, the minimum Python datetime,
which is `0` on our scale. -/
def datetimeMin : Nat := 0

/-- Seconds in `timedelta(days=7)`. -/
def sevenDays : Nat := 7 * 86400

/-- Embedding of `DataExtractor.check_last_modified_date`.  The `raise_error`
parameter defaults to `False` in the source; callers here pass it explicitly.
If the file does not exist: in strict mode raise `FileNotFoundError` with the
message `f"file '{filename}' not found in path '{directory}'."` built from
`os.path.split`, otherwise use the sentinel `datetime(1, 1, 1)`.  If it
exists, use its modification time.  The filesystem is threaded through and
returned so that absence of side effects is a statable fact. -/
def check_last_modified_date (file_path : PyPathOrStr) (raise_error : Bool)
    (fs : FS) : Except PyError (Nat × FS) :=
  match fs (pathToStr file_path) with
  | none =>
      let dirfile := pySplit (pathToStr file_path)
      if raise_error then
        .error (.fileNotFound
          ("file \x27" ++ dirfile.2 ++ "\x27 not found in path \x27" ++
            dirfile.1 ++ "\x27."))
      else
        .ok (datetimeMin, fs)
  | some entry => .ok (entry.mtime, fs)

/-- Embedding of `pd.read_csv`: reading a missing file raises
`FileNotFoundError`; reading an existing file yields its stored table. -/
def read_csv (fs : FS) (p : PyPathOrStr) : Except PyError Table :=
  match fs (pathToStr p) with
  | none => .error (.fileNotFound ("No such file or directory: " ++ pathToStr p))
  | some entry => .ok entry.content

/-- Embedding of `df.to_csv(target, index=False)`: overwrite the target path
with the table, the new mtime being the time of the write. -/
def to_csv (fs : FS) (p : PyPathOrStr) (df : Table) (now : Nat) : FS :=
  fun q => if q = pathToStr p then some ⟨now, df⟩ else fs q

/-- Ambient world for `request_all_crypto_info`: the current wall-clock time
and the HTTP oracle (for a URL, the table parsed from the JSON body of a
synchronous GET on it, i.e. `pd.DataFrame(requests.get(url).json())`). -/
structure Env where
  now : Nat
  fetch : String → Table

/-- Result of `request_all_crypto_info`: the returned table, the filesystem
after the call, and whether a network request was issued. -/
structure RequestResult where
  crypto_df : Table
  fs : FS
  networkCalled : Bool

/-- Embedding of `DataExtractor.request_all_crypto_info`: resolve the target
file, take its last-modified time (non-strict mode), and if it is at most
seven days old load the cached file, otherwise GET `api_url`, build the
table from the JSON, and, when `save_file` is set, overwrite the target
file with it. -/
def request_all_crypto_info (env : Env) (api_url : String)
    (folder_path : PyPathOrStr) (file_name : String) (save_file : Bool)
    (fs : FS) : Except PyError RequestResult :=
  let target_file := point_to_specific_file folder_path file_name
  match check_last_modified_date target_file false fs with
  | .error e => .error e
  | .ok (last_modified, fs1) =>
      if env.now - last_modified ≤ sevenDays then
        match read_csv fs1 target_file with
        | .error e => .error e
        | .ok crypto_df => .ok ⟨crypto_df, fs1, false⟩
      else
        let crypto_df := env.fetch api_url
        let fs2 := if save_file then to_csv fs1 target_file crypto_df env.now
                   else fs1
        .ok ⟨crypto_df, fs2, true⟩

/-- An OHLCV dataframe: named numeric columns.  Prices are embedded as exact
rationals (decimal float literals are exact rationals); `df[name]` is lookup
of the first column with that name. -/
structure Frame where
  cols : List (String × List ℚ)
deriving DecidableEq

/-- Column lookup, `df[name]`. -/
def Frame.getCol (df : Frame) (name : String) : Option (List ℚ) :=
  (df.cols.find? (fun c => c.1 == name)).map Prod.snd

/-- Failure modes of the numeric helpers: a missing column (`KeyError`), the
builtin `min`/`max` on an empty series (`ValueError`), and a zero denominator,
which the source reaches unguarded and for which no rational result exists. -/
inductive PyNumError where
  | keyError (col : String)
  | valueError
  | divByZero
deriving DecidableEq

/-- Embedding of `DataExtractor.get_minmax_position`:
`min_value, max_value = min(df['Close']), max(df['Close'])`,
`latest_price = df['Close'].iloc[-1]`, then
`(latest_price - min_value) / (max_value - min_value)`.  The builtin `min` on
a series folds over its values; the division carries no guard in the source,
so a zero denominator is embedded as the explicit undefined-division marker
`divByZero`. -/
def get_minmax_position (df_input : Frame) : Except PyNumError ℚ :=
  match df_input.getCol "Close" with
  | none => .error (.keyError "Close")
  | some close =>
      match close with
      | [] => .error .valueError
      | c :: cs =>
          let min_value := cs.foldl min c
          let max_value := cs.foldl max c
          let latest_price := (c :: cs).getLast (List.cons_ne_nil c cs)
          if max_value - min_value = 0 then .error .divByZero
          else .ok ((latest_price - min_value) / (max_value - min_value))

/-- Embedding of `Series.diff()` after a leading element: each entry is the
current value minus the previous one. -/
def seriesDiffAux (prev : ℚ) : List ℚ → List (Option ℚ)
  | [] => []
  | c :: cs => some (c - prev) :: seriesDiffAux c cs

/-- Embedding of `df[['Close']].diff()`: the first row has no predecessor and
is missing (`NaN`); every later row is current minus previous close. -/
def seriesDiff : List ℚ → List (Option ℚ)
  | [] => []
  | c :: cs => none :: seriesDiffAux c cs

/-- Embedding of `Series.pct_change()` after a leading element: each entry is
`current / previous - 1`; a zero previous value yields no finite rational
(the float division gives `inf`/`NaN`), embedded as `none`. -/
def seriesPctChangeAux (prev : ℚ) : List ℚ → List (Option ℚ)
  | [] => []
  | c :: cs =>
      (if prev = 0 then none else some (c / prev - 1)) :: seriesPctChangeAux c cs

/-- Embedding of `df[['Close']].pct_change()`: first row missing (`NaN`),
later rows `current / previous - 1`. -/
def seriesPctChange : List ℚ → List (Option ℚ)
  | [] => []
  | c :: cs => none :: seriesPctChangeAux c cs

/-- Embedding of `np.log(1 + pct)` applied entrywise to a percentage-change
column.  `log` is the natural logarithm, kept as a parameter so the
definition stays executable; a missing entry stays missing, and a
non-positive argument has no real logarithm (`np.log` gives `-inf`/`NaN`),
embedded as `none`. -/
def logColumn (log : ℚ → ℝ) (pct : List (Option ℚ)) : List (Option ℝ) :=
  pct.map (fun o =>
    match o with
    | none => none
    | some q => if 1 + q ≤ 0 then none else some (log (1 + q)))

/-- Result of `get_diff_prices`: the copied input columns (`input_df.copy()`)
augmented, in order, with the three derived columns
`abs_price_diff`, `pct_price_diff`, `pct_log_price_value`. -/
structure DiffFrame where
  base : List (String × List ℚ)
  abs_price_diff : List (Option ℚ)
  pct_price_diff : List (Option ℚ)
  pct_log_price_value : List (Option ℝ)

/-- Embedding of `DataExtractor.get_diff_prices`: copy the input frame, then
add the close-to-close absolute difference, percentage change, and natural
log of one plus the percentage change.  A frame without a `Close` column
raises `KeyError`. -/
def get_diff_prices (log : ℚ → ℝ) (input_df : Frame) :
    Except PyNumError DiffFrame :=
  match input_df.getCol "Close" with
  | none => .error (.keyError "Close")
  | some close =>
      .ok ⟨input_df.cols, seriesDiff close, seriesPctChange close,
           logColumn log (seriesPctChange close)⟩

/-- String form of the resolved target file, `target_file` in the source. -/
def targetStr (folder_path : PyPathOrStr) (file_name : String) : String :=
  pathToStr (point_to_specific_file folder_path file_name)

/-- Concrete table standing for a cached snapshot. -/
def tableA : Table := [["id", "current_price"], ["bitcoin", "67000"]]

/-- Concrete table standing for the JSON body of a fresh fetch. -/
def tableB : Table := [["id", "current_price"], ["bitcoin", "90000"]]

/-- Empty filesystem. -/
def fsEmpty : FS := fun _ => none

/-- Filesystem holding one cache file written at time 1000000. -/
def fsOne : FS := fun q =>
  if q = "data/crypto_100_info.csv" then some ⟨1000000, tableA⟩ else none

/-- World ten minutes after the cache file of `fsOne` was written. -/
def envSoon : Env := ⟨1000000 + 600, fun _ => tableB⟩

/-- World eight days after the cache file of `fsOne` was written. -/
def envLate : Env := ⟨1000000 + 8 * 86400, fun _ => tableB⟩

/-- Frame with close prices 10, 20, 15. -/
def frameMinmax : Frame := ⟨[("Close", [10, 20, 15])]⟩

/-- Frame with a constant close price. -/
def frameConst : Frame := ⟨[("Close", [5, 5, 5])]⟩

/-- Frame with close prices 100, 110, 99. -/
def frameDiff : Frame := ⟨[("Close", [100, 110, 99])]⟩

/-- C8: `point_to_specific_file` produces the target path with a `.csv`
suffix appended to the file name; a structured folder is joined with the new
segment, a plain-string folder is concatenated with a `/` separator. -/
theorem point_to_specific_file_spec (segs : List String) (s file_name : String) :
    point_to_specific_file (.path segs) file_name =
      .path (segs ++ [file_name ++ ".csv"]) ∧
    point_to_specific_file (.str s) file_name =
      .str (s ++ "/" ++ file_name ++ ".csv") :=
  ⟨rfl, rfl⟩

/-- C3: `check_last_modified_date` returns the mtime of an existing file; on
a missing file it returns the sentinel minimal timestamp when `raise_error`
is false, and a `FileNotFoundError` whose message names both the missing
file name and its containing directory when `raise_error` is true; in every
non-raising case the filesystem it returns is the one it was given,
unchanged. -/
theorem check_last_modified_date_spec (fs : FS) (p : PyPathOrStr) :
    (∀ entry, fs (pathToStr p) = some entry → ∀ raise_error,
      check_last_modified_date p raise_error fs = .ok (entry.mtime, fs)) ∧
    (fs (pathToStr p) = none →
      check_last_modified_date p false fs = .ok (datetimeMin, fs)) ∧
    (fs (pathToStr p) = none →
      ∃ msg, check_last_modified_date p true fs = .error (.fileNotFound msg) ∧
        (∃ u v, msg = u ++ (pySplit (pathToStr p)).2 ++ v) ∧
        (∃ u v, msg = u ++ (pySplit (pathToStr p)).1 ++ v)) := by
  refine ⟨?_, ?_, ?_⟩
  · intro entry h raise_error
    simp [check_last_modified_date, h]
  · intro h
    simp [check_last_modified_date, h]
  · intro h
    refine ⟨"file \x27" ++ (pySplit (pathToStr p)).2 ++
      "\x27 not found in path \x27" ++ (pySplit (pathToStr p)).1 ++ "\x27.",
      by simp [check_last_modified_date, h], ?_, ?_⟩
    · exact ⟨"file \x27", "\x27 not found in path \x27" ++
        (pySplit (pathToStr p)).1 ++ "\x27.",
        by simp only [String.append_assoc]⟩
    · exact ⟨"file \x27" ++ (pySplit (pathToStr p)).2 ++
        "\x27 not found in path \x27", "\x27.", rfl⟩

/-- Witness for C3: a present file yields its mtime, an absent one the
sentinel, and the filesystem comes back unchanged. -/
theorem check_last_modified_date_spec_witness :
    check_last_modified_date (.str "data/crypto_100_info.csv") false fsOne =
      .ok (1000000, fsOne) ∧
    check_last_modified_date (.str "data/other.csv") false fsOne =
      .ok (datetimeMin, fsOne) := by
  constructor
  · exact (check_last_modified_date_spec fsOne
      (.str "data/crypto_100_info.csv")).1 ⟨1000000, tableA⟩ (by decide) false
  · exact (check_last_modified_date_spec fsOne
      (.str "data/other.csv")).2.1 (by decide)

/-- C1: a cache file whose mtime is within seven days of now is served from
disk: no network call is issued, the filesystem is untouched, and the
returned table is exactly the content of the file. -/
theorem request_all_crypto_info_fresh (env : Env) (api_url : String)
    (folder_path : PyPathOrStr) (file_name : String) (save_file : Bool)
    (fs : FS) (entry : FileEntry)
    (hfile : fs (targetStr folder_path file_name) = some entry)
    (hfresh : env.now - entry.mtime ≤ sevenDays) :
    request_all_crypto_info env api_url folder_path file_name save_file fs =
      .ok ⟨entry.content, fs, false⟩ := by
  simp [request_all_crypto_info, check_last_modified_date, read_csv,
    targetStr] at hfile ⊢
  have hfresh2 : env.now ≤ sevenDays + entry.mtime := by omega
  simp [hfile, hfresh, hfresh2]

/-- Witness for C1: ten minutes after the write, the cached table is
returned, the filesystem is unchanged, and no network call is made. -/
theorem request_all_crypto_info_fresh_witness :
    request_all_crypto_info envSoon "url" (.str "data") "crypto_100_info"
      true fsOne = .ok ⟨tableA, fsOne, false⟩ :=
  request_all_crypto_info_fresh envSoon "url" (.str "data") "crypto_100_info"
    true fsOne ⟨1000000, tableA⟩ (by decide) (by decide)

/-- C2: a stale or absent cache file forces a fetch: the GET on `api_url` is
issued, the returned table is the freshly fetched one (never the stale file
content), and when `save_file` is true the target file is overwritten with
it; an absent file behaves this way whenever now is past the sentinel
freshness window, as any real clock is. -/
theorem request_all_crypto_info_stale (env : Env) (api_url : String)
    (folder_path : PyPathOrStr) (file_name : String) (save_file : Bool)
    (fs : FS)
    (hstale : (fs (targetStr folder_path file_name) = none ∧
                ¬ env.now - datetimeMin ≤ sevenDays) ∨
              (∃ entry, fs (targetStr folder_path file_name) = some entry ∧
                ¬ env.now - entry.mtime ≤ sevenDays)) :
    request_all_crypto_info env api_url folder_path file_name save_file fs =
      .ok ⟨env.fetch api_url,
           if save_file then
             to_csv fs (point_to_specific_file folder_path file_name)
               (env.fetch api_url) env.now
           else fs,
           true⟩ := by
  rcases hstale with ⟨habs, hgt⟩ | ⟨entry, hent, hgt⟩
  · simp [targetStr] at habs
    simp [request_all_crypto_info, check_last_modified_date, habs, hgt]
  · simp [targetStr] at hent
    simp [request_all_crypto_info, check_last_modified_date, hent, hgt]

/-- Witness for C2: eight days after the write the file is stale; the fetch
result is returned and the file is overwritten with it. -/
theorem request_all_crypto_info_stale_witness :
    request_all_crypto_info envLate "url" (.str "data") "crypto_100_info"
      true fsOne =
      .ok ⟨tableB,
           to_csv fsOne (point_to_specific_file (.str "data") "crypto_100_info")
             tableB envLate.now,
           true⟩ :=
  request_all_crypto_info_stale envLate "url" (.str "data") "crypto_100_info"
    true fsOne (Or.inr ⟨⟨1000000, tableA⟩, by decide, by decide⟩)

/-- C9: a missing cache file never raises `FileNotFoundError` through
`request_all_crypto_info`: the staleness check runs in its non-raising mode
and yields the sentinel, and, now being past the sentinel freshness window,
the call takes the fetch branch and succeeds with the fetched table. -/
theorem request_all_crypto_info_absent_no_error (env : Env) (api_url : String)
    (folder_path : PyPathOrStr) (file_name : String) (save_file : Bool)
    (fs : FS)
    (habs : fs (targetStr folder_path file_name) = none)
    (hnow : ¬ env.now - datetimeMin ≤ sevenDays) :
    check_last_modified_date (point_to_specific_file folder_path file_name)
      false fs = .ok (datetimeMin, fs) ∧
    ∃ r, request_all_crypto_info env api_url folder_path file_name save_file
        fs = .ok r ∧
      r.networkCalled = true ∧ r.crypto_df = env.fetch api_url := by
  simp [targetStr] at habs
  refine ⟨by simp [check_last_modified_date, habs], ?_⟩
  refine ⟨⟨env.fetch api_url,
    if save_file then
      to_csv fs (point_to_specific_file folder_path file_name)
        (env.fetch api_url) env.now
    else fs, true⟩, ?_, rfl, rfl⟩
  simp [request_all_crypto_info, check_last_modified_date, habs, hnow]

/-- Witness for C9: on an empty filesystem the call succeeds and fetches. -/
theorem request_all_crypto_info_absent_no_error_witness :
    check_last_modified_date
      (point_to_specific_file (.str "data") "crypto_100_info") false fsEmpty =
      .ok (datetimeMin, fsEmpty) ∧
    ∃ r, request_all_crypto_info envLate "url" (.str "data") "crypto_100_info"
        true fsEmpty = .ok r ∧
      r.networkCalled = true ∧ r.crypto_df = envLate.fetch "url" :=
  request_all_crypto_info_absent_no_error envLate "url" (.str "data")
    "crypto_100_info" true fsEmpty (by decide) (by decide)

/-- C10: on the fetch branch with `save_file` false nothing is written: the
filesystem after the call is exactly the one before it, including any stale
cache file, while the freshly fetched table is returned. -/
theorem request_all_crypto_info_no_save (env : Env) (api_url : String)
    (folder_path : PyPathOrStr) (file_name : String) (fs : FS)
    (hstale : (fs (targetStr folder_path file_name) = none ∧
                ¬ env.now - datetimeMin ≤ sevenDays) ∨
              (∃ entry, fs (targetStr folder_path file_name) = some entry ∧
                ¬ env.now - entry.mtime ≤ sevenDays)) :
    request_all_crypto_info env api_url folder_path file_name false fs =
      .ok ⟨env.fetch api_url, fs, true⟩ := by
  rcases hstale with ⟨habs, hgt⟩ | ⟨entry, hent, hgt⟩
  · simp [targetStr] at habs
    simp [request_all_crypto_info, check_last_modified_date, habs, hgt]
  · simp [targetStr] at hent
    simp [request_all_crypto_info, check_last_modified_date, hent, hgt]

/-- Witness for C10: with saving disabled, the stale file is still on disk
unchanged after the call and the fetched table is returned. -/
theorem request_all_crypto_info_no_save_witness :
    request_all_crypto_info envLate "url" (.str "data") "crypto_100_info"
      false fsOne = .ok ⟨tableB, fsOne, true⟩ :=
  request_all_crypto_info_no_save envLate "url" (.str "data")
    "crypto_100_info" fsOne (Or.inr ⟨⟨1000000, tableA⟩, by decide, by decide⟩)

/-- Folding `min` over a list never exceeds the initial value. -/
theorem foldl_min_le_init (c : ℚ) (l : List ℚ) : l.foldl min c ≤ c := by
  induction l generalizing c with
  | nil => exact le_refl c
  | cons x xs ih => exact le_trans (ih (min c x)) (min_le_left c x)

/-- Folding `min` over a list never exceeds any member. -/
theorem foldl_min_le_mem (l : List ℚ) (c a : ℚ) (h : a ∈ l) :
    l.foldl min c ≤ a := by
  induction l generalizing c with
  | nil => cases h
  | cons x xs ih =>
      rcases List.mem_cons.mp h with rfl | h2
      · exact le_trans (foldl_min_le_init (min c a) xs) (min_le_right c a)
      · exact ih (min c x) h2

/-- Folding `max` over a list is at least the initial value. -/
theorem init_le_foldl_max (c : ℚ) (l : List ℚ) : c ≤ l.foldl max c := by
  induction l generalizing c with
  | nil => exact le_refl c
  | cons x xs ih => exact le_trans (le_max_left c x) (ih (max c x))

/-- Folding `max` over a list is at least any member. -/
theorem mem_le_foldl_max (l : List ℚ) (c a : ℚ) (h : a ∈ l) :
    a ≤ l.foldl max c := by
  induction l generalizing c with
  | nil => cases h
  | cons x xs ih =>
      rcases List.mem_cons.mp h with rfl | h2
      · exact le_trans (le_max_right c a) (init_le_foldl_max (max c a) xs)
      · exact ih (max c x) h2

/-- Folding `min` over a constant list returns the constant. -/
theorem foldl_min_const (c : ℚ) (cs : List ℚ) (h : ∀ x ∈ cs, x = c) :
    cs.foldl min c = c := by
  induction cs with
  | nil => rfl
  | cons x xs ih =>
      have hx : x = c := h x (List.mem_cons_self x xs)
      rw [List.foldl_cons, hx, min_self]
      exact ih (fun y hy => h y (List.mem_cons_of_mem x hy))

/-- Folding `max` over a constant list returns the constant. -/
theorem foldl_max_const (c : ℚ) (cs : List ℚ) (h : ∀ x ∈ cs, x = c) :
    cs.foldl max c = c := by
  induction cs with
  | nil => rfl
  | cons x xs ih =>
      have hx : x = c := h x (List.mem_cons_self x xs)
      rw [List.foldl_cons, hx, max_self]
      exact ih (fun y hy => h y (List.mem_cons_of_mem x hy))

/-- C4: on a non-empty close column with distinct minimum and maximum,
`get_minmax_position` returns
`(latest - min) / (max - min)`, a value between 0 and 1; on close prices
10, 20, 15 it returns one half. -/
theorem get_minmax_position_spec (df : Frame) (c : ℚ) (cs : List ℚ)
    (hcol : df.getCol "Close" = some (c :: cs))
    (hne : cs.foldl min c ≠ cs.foldl max c) :
    (∃ q, get_minmax_position df = .ok q ∧
      q = (((c :: cs).getLast (List.cons_ne_nil c cs) - cs.foldl min c) /
           (cs.foldl max c - cs.foldl min c)) ∧
      0 ≤ q ∧ q ≤ 1) ∧
    get_minmax_position frameMinmax = .ok (1 / 2) := by
  constructor
  · set mn := cs.foldl min c with hmn
    set mx := cs.foldl max c with hmx
    set last := (c :: cs).getLast (List.cons_ne_nil c cs) with hlast
    have hlast_mem : last ∈ c :: cs := List.getLast_mem _
    have hmn_le : mn ≤ last := by
      rcases List.mem_cons.mp hlast_mem with h1 | h2
      · rw [h1]; exact foldl_min_le_init c cs
      · exact foldl_min_le_mem cs c last h2
    have hle_mx : last ≤ mx := by
      rcases List.mem_cons.mp hlast_mem with h1 | h2
      · rw [h1]; exact init_le_foldl_max c cs
      · exact mem_le_foldl_max cs c last h2
    have hmn_le_mx : mn ≤ mx := le_trans hmn_le hle_mx
    have hlt : mn < mx := lt_of_le_of_ne hmn_le_mx hne
    have hpos : 0 < mx - mn := by linarith
    have hsub_ne : mx - mn ≠ 0 := ne_of_gt hpos
    refine ⟨(last - mn) / (mx - mn), ?_, rfl, ?_, ?_⟩
    · simp only [get_minmax_position, hcol]
      rw [if_neg hsub_ne]
    · exact div_nonneg (by linarith) (le_of_lt hpos)
    · rw [div_le_one hpos]; linarith
  · simp [get_minmax_position, frameMinmax, Frame.getCol, List.find?]
    norm_num

/-- Witness for C4 at close prices 10, 20, 15: the position is one half and
lies between 0 and 1. -/
theorem get_minmax_position_spec_witness :
    (∃ q, get_minmax_position frameMinmax = .ok q ∧
      q = ((([(10 : ℚ), 20, 15]).getLast (List.cons_ne_nil 10 [20, 15]) -
            [(20 : ℚ), 15].foldl min 10) /
           ([(20 : ℚ), 15].foldl max 10 - [(20 : ℚ), 15].foldl min 10)) ∧
      0 ≤ q ∧ q ≤ 1) ∧
    get_minmax_position frameMinmax = .ok (1 / 2) :=
  get_minmax_position_spec frameMinmax 10 [20, 15] (by decide) (by decide)

/-- C5: on a constant close column the subtraction `max - min` is zero and
the unguarded division in `get_minmax_position` has no defined result: the
call ends in the undefined-division marker rather than any value. -/
theorem get_minmax_position_const (df : Frame) (c : ℚ) (cs : List ℚ)
    (hcol : df.getCol "Close" = some (c :: cs))
    (hconst : ∀ x ∈ c :: cs, x = c) :
    get_minmax_position df = .error .divByZero := by
  have hcs : ∀ x ∈ cs, x = c := fun x hx =>
    hconst x (List.mem_cons_of_mem c hx)
  have hmn : cs.foldl min c = c := foldl_min_const c cs hcs
  have hmx : cs.foldl max c = c := foldl_max_const c cs hcs
  simp only [get_minmax_position, hcol]
  rw [if_pos (by rw [hmn, hmx, sub_self])]

/-- Witness for C5: a constant close column of three fives yields the
undefined-division marker. -/
theorem get_minmax_position_const_witness :
    get_minmax_position frameConst = .error .divByZero :=
  get_minmax_position_const frameConst 5 [5, 5] (by decide) (by decide)

/-- The tail of the diff column pairs every value with its predecessor. -/
theorem seriesDiffAux_eq_zip (prev : ℚ) (l : List ℚ) :
    seriesDiffAux prev l =
      ((prev :: l).zip l).map (fun p => some (p.2 - p.1)) := by
  induction l generalizing prev with
  | nil => rfl
  | cons c cs ih => simp [seriesDiffAux, ih c]

/-- The tail of the percentage-change column pairs every value with its
predecessor. -/
theorem seriesPctChangeAux_eq_zip (prev : ℚ) (l : List ℚ) :
    seriesPctChangeAux prev l =
      ((prev :: l).zip l).map
        (fun p => if p.1 = 0 then none else some (p.2 / p.1 - 1)) := by
  induction l generalizing prev with
  | nil => rfl
  | cons c cs ih => simp [seriesPctChangeAux, ih c]

/-- The diff column has one entry per row. -/
theorem seriesDiffAux_length (prev : ℚ) (l : List ℚ) :
    (seriesDiffAux prev l).length = l.length := by
  induction l generalizing prev with
  | nil => rfl
  | cons c cs ih => simp [seriesDiffAux, ih c]

/-- The diff column of a close column has one entry per row. -/
theorem seriesDiff_length (l : List ℚ) : (seriesDiff l).length = l.length := by
  cases l with
  | nil => rfl
  | cons c cs => simp [seriesDiff, seriesDiffAux_length]

/-- The percentage-change column has one entry per row. -/
theorem seriesPctChangeAux_length (prev : ℚ) (l : List ℚ) :
    (seriesPctChangeAux prev l).length = l.length := by
  induction l generalizing prev with
  | nil => rfl
  | cons c cs ih => simp [seriesPctChangeAux, ih c]

/-- The percentage-change column of a close column has one entry per row. -/
theorem seriesPctChange_length (l : List ℚ) :
    (seriesPctChange l).length = l.length := by
  cases l with
  | nil => rfl
  | cons c cs => simp [seriesPctChange, seriesPctChangeAux_length]

/-- The log column has one entry per percentage-change entry. -/
theorem logColumn_length (log : ℚ → ℝ) (pct : List (Option ℚ)) :
    (logColumn log pct).length = pct.length := by
  simp [logColumn]

/-- C6: `get_diff_prices` adds three columns computed row-wise over the close
column, in order: the absolute difference from the previous close, the
percentage change from the previous close, and the natural log of one plus
the percentage change, each missing in the first row; on closes 100, 110, 99
the columns are exactly the ones the specification lists. -/
theorem get_diff_prices_spec (df : Frame) (c : ℚ) (cs : List ℚ)
    (hcol : df.getCol "Close" = some (c :: cs)) :
    (∃ r, get_diff_prices (fun q : ℚ => Real.log q) df = .ok r ∧
      r.abs_price_diff =
        none :: ((c :: cs).zip cs).map (fun p => some (p.2 - p.1)) ∧
      r.pct_price_diff =
        none :: ((c :: cs).zip cs).map
          (fun p => if p.1 = 0 then none else some (p.2 / p.1 - 1)) ∧
      r.pct_log_price_value =
        none :: ((c :: cs).zip cs).map
          (fun p => if p.1 = 0 then none
            else if 1 + (p.2 / p.1 - 1) ≤ 0 then none
            else some (Real.log (1 + (p.2 / p.1 - 1))))) ∧
    (∃ r, get_diff_prices (fun q : ℚ => Real.log q) frameDiff = .ok r ∧
      r.abs_price_diff = [none, some 10, some (-11)] ∧
      r.pct_price_diff = [none, some (1 / 10), some (-1 / 10)] ∧
      r.pct_log_price_value =
        [none, some (Real.log (11 / 10)), some (Real.log (9 / 10))]) := by
  constructor
  · refine ⟨⟨df.cols, seriesDiff (c :: cs), seriesPctChange (c :: cs),
      logColumn (fun q : ℚ => Real.log q) (seriesPctChange (c :: cs))⟩,
      by simp [get_diff_prices, hcol], ?_, ?_, ?_⟩
    · simp [seriesDiff, seriesDiffAux_eq_zip]
    · simp [seriesPctChange, seriesPctChangeAux_eq_zip]
    · simp only [logColumn, seriesPctChange, seriesPctChangeAux_eq_zip,
        List.map_cons, List.map_map]
      refine congrArg (none :: ·) (List.map_congr_left ?_)
      intro p hp
      by_cases h0 : p.1 = 0 <;> simp [h0]
  · refine ⟨⟨frameDiff.cols, seriesDiff [100, 110, 99],
      seriesPctChange [100, 110, 99],
      logColumn (fun q : ℚ => Real.log q) (seriesPctChange [100, 110, 99])⟩,
      by simp [get_diff_prices, frameDiff, Frame.getCol, List.find?],
      ?_, ?_, ?_⟩
    · norm_num [seriesDiff, seriesDiffAux]
    · norm_num [seriesPctChange, seriesPctChangeAux]
    · norm_num [logColumn, seriesPctChange, seriesPctChangeAux]

/-- Witness for C6: the concrete columns on closes 100, 110, 99. -/
theorem get_diff_prices_spec_witness :
    ∃ r, get_diff_prices (fun q : ℚ => Real.log q) frameDiff = .ok r ∧
      r.abs_price_diff = [none, some 10, some (-11)] ∧
      r.pct_price_diff = [none, some (1 / 10), some (-1 / 10)] ∧
      r.pct_log_price_value =
        [none, some (Real.log (11 / 10)), some (Real.log (9 / 10))] :=
  (get_diff_prices_spec frameDiff 100 [110, 99] (by decide)).2

/-- C7: `get_diff_prices` returns a copy of the input augmented with exactly
the three derived columns, each with one entry per row of the close column;
every pre-existing column appears unchanged in the result, and the input
frame itself, being copied before the assignments, is left unchanged. -/
theorem get_diff_prices_frame (log : ℚ → ℝ) (df : Frame) (close : List ℚ)
    (hcol : df.getCol "Close" = some close) :
    ∃ r, get_diff_prices log df = .ok r ∧
      r.base = df.cols ∧
      r.abs_price_diff.length = close.length ∧
      r.pct_price_diff.length = close.length ∧
      r.pct_log_price_value.length = close.length := by
  refine ⟨⟨df.cols, seriesDiff close, seriesPctChange close,
    logColumn log (seriesPctChange close)⟩,
    by simp [get_diff_prices, hcol], rfl,
    seriesDiff_length close, seriesPctChange_length close, ?_⟩
  rw [logColumn_length, seriesPctChange_length]

/-- Witness for C7 on the concrete three-row frame. -/
theorem get_diff_prices_frame_witness :
    ∃ r, get_diff_prices (fun q : ℚ => Real.log q) frameDiff = .ok r ∧
      r.base = frameDiff.cols ∧
      r.abs_price_diff.length = 3 ∧
      r.pct_price_diff.length = 3 ∧
      r.pct_log_price_value.length = 3 :=
  get_diff_prices_frame (fun q : ℚ => Real.log q) frameDiff [100, 110, 99]
    (by decide)

end DataExtractor
